import Mathlib

/-!
Verification of the price resolution engine of the suiwatch repository
(src/services/price.service.ts).

The embedding models JavaScript numbers as an inductive type separating
NaN and the infinities from finite rationals, external HTTP/SDK calls as
environment fields giving the parsed response (or a thrown error) per
call site and retry attempt, and the orchestrator getTokenPrice as a
pure function from that environment to a result, the attempted and
performed cache writes, and the ordered trace of source adapters
invoked.  Every adapter is translated from the TypeScript source.
-/

/-- Model of a JavaScript number: NaN, the two infinities, or a finite
value represented as a rational. -/
inductive JsNum where
  | nan : JsNum
  | posInf : JsNum
  | negInf : JsNum
  | fin (q : ℚ) : JsNum
deriving DecidableEq, Repr

/-- Model of a JavaScript string as used by the engine: the string value
(for truthiness tests) together with the result of a Number(...) coercion. -/
structure JsStr where
  val : String
  num : JsNum
deriving DecidableEq, Repr

/-- JavaScript truthiness of a number: NaN and 0 are falsy. -/
def jsTruthy : JsNum → Bool
  | .nan => false
  | .posInf => true
  | .negInf => true
  | .fin q => decide (q ≠ 0)

/-- JavaScript strict equality test against 0 (NaN === 0 is false). -/
def jsEqZero : JsNum → Bool
  | .fin q => decide (q = 0)
  | _ => false

/-- isValidPrice on a raw number (source line 113): typeof number, not
NaN, finite, and strictly greater than zero. -/
def isValidPriceN : JsNum → Bool
  | .fin q => decide (0 < q)
  | _ => false

/-- isValidPrice on a number-or-null/undefined value (null and undefined
fail the typeof check). -/
def isValidPrice : Option JsNum → Bool
  | some n => isValidPriceN n
  | none => false

/-- JavaScript a || b on number-or-undefined values: keeps a when a is
truthy, otherwise yields b. -/
def jsOr (a b : Option JsNum) : Option JsNum :=
  match a with
  | some n => if jsTruthy n then some n else b
  | none => b

/-- JavaScript comparison x > 0 on a possibly-undefined number
(undefined and NaN compare false). -/
def jsGtZeroOpt : Option JsNum → Bool
  | some (.fin q) => decide (0 < q)
  | some .posInf => true
  | _ => false

/-- JavaScript strict greater-than on numbers (false whenever either
side is NaN). -/
def jsGt : JsNum → JsNum → Bool
  | .nan, _ => false
  | _, .nan => false
  | .posInf, .posInf => false
  | .posInf, _ => true
  | _, .posInf => false
  | .negInf, _ => false
  | .fin _, .negInf => true
  | .fin x, .fin y => decide (y < x)

/-- Division of a JavaScript number by the positive constant 1e6
(source line 400). -/
def jsDiv1e6 : JsNum → JsNum
  | .nan => .nan
  | .posInf => .posInf
  | .negInf => .negInf
  | .fin q => .fin (q / 1000000)

/-- Lookup of a key in a JavaScript object modelled as an association
list in insertion order (Object.keys order). -/
def lookupKey {β : Type} : List (String × β) → String → Option β
  | [], _ => none
  | (k, v) :: rest, key => if k = key then some v else lookupKey rest key

/-- Test whether the second character list starts with the first. -/
def startsWithL : List Char → List Char → Bool
  | [], _ => true
  | _ :: _, [] => false
  | p :: ps, c :: cs => p == c && startsWithL ps cs

/-- Test whether some suffix of the character list starts with the
pattern. -/
def hasInfixL (pat : List Char) : List Char → Bool
  | [] => pat.isEmpty
  | c :: rest => startsWithL pat (c :: rest) || hasInfixL pat rest

/-- Model of JavaScript String.prototype.includes: the pattern occurs as
a contiguous substring. -/
def jsIncludes (s pat : String) : Bool :=
  hasInfixL pat.data s.data

/-- extractContractAddress (source lines 67-70): first component of the
:: separated coin type, falling back to the whole string when falsy. -/
def extractContractAddress (coinType : String) : String :=
  let parts := coinType.splitOn "::"
  match parts.head? with
  | some h => if h = "" then coinType else h
  | none => coinType

/-- extractSymbol (source lines 76-79): last component of the ::
separated coin type, falling back to the whole string when falsy. -/
def extractSymbol (coinType : String) : String :=
  let parts := coinType.splitOn "::"
  match parts.getLast? with
  | some l => if l = "" then coinType else l
  | none => coinType

/-- retryOperation loop (source lines 97-111), written with the
remaining iteration count as fuel: the loop body at index i with fuel
maxRetries - i.  An operation is a function from the attempt index to
either a thrown error or a resolved value.  Returns the final result,
the number of attempts performed, and the list of backoff delays waited
(delay * (i + 1) after the failed attempt of index i, except after the
final attempt). -/
def retryGo {α : Type} (op : Nat → Except Unit α) (delay : Nat) (i : Nat) :
    Nat → Option α × Nat × List Nat
  | 0 => (none, 0, [])
  | fuel + 1 =>
    match op i with
    | .ok v => (some v, 1, [])
    | .error _ =>
      if fuel = 0 then (none, 1, [])
      else
        let r := retryGo op delay (i + 1) fuel
        (r.1, r.2.1 + 1, delay * (i + 1) :: r.2.2)

/-- retryOperation (source lines 97-111): run the loop from index 0 with
maxRetries iterations available. -/
def retryOperation {α : Type} (op : Nat → Except Unit α) (maxRetries : Nat)
    (delay : Nat) : Option α × Nat × List Nat :=
  retryGo op delay 0 maxRetries

/-- GeckoTerminal response as consumed by the code: HTTP ok flag and the
optional data.attributes.price_usd string. -/
structure GTResp where
  ok : Bool
  price_usd : Option JsStr
deriving DecidableEq, Repr

/-- One DexScreener pair as consumed by the code. -/
structure DSPair where
  chainId : String
  dexId : String
  priceUsd : JsStr
  liquidity : Option JsNum
  quoteAddr : String
  quoteSym : String
deriving DecidableEq, Repr

/-- DexScreener search response: HTTP ok flag and the possibly-null
pairs array. -/
structure DSResp where
  ok : Bool
  pairs : Option (List DSPair)
deriving DecidableEq, Repr

/-- CoinGecko simple/price response: HTTP ok flag and the id-to-usd
entries (absence of an id or of its usd field collapses to a missing
entry). -/
structure CGResp where
  ok : Bool
  entries : List (String × JsNum)
deriving DecidableEq, Repr

/-- GeckoTerminal response used for the coingecko_coin_id lookup inside
the CoinGecko search adapter. -/
structure GTCgidResp where
  ok : Bool
  cgId : Option String
deriving DecidableEq, Repr

/-- One coin entry in a CoinGecko search response; platforms is the
optional set of platform keys. -/
structure CGSearchCoin where
  id : String
  symbol : String
  name : String
  platforms : Option (List String)
deriving DecidableEq, Repr

/-- CoinGecko search response: HTTP ok flag and the possibly-missing
coins array. -/
structure CGSearchResp where
  ok : Bool
  coins : Option (List CGSearchCoin)
deriving DecidableEq, Repr

/-- Hop aggregator quote response as consumed by the code. -/
structure HopResp where
  ok : Bool
  amount_out_with_fee : Option JsNum
  amount_out : Option JsNum
deriving DecidableEq, Repr

/-- One value of the Aftermath price-info response object: an object
with an optional price field. -/
structure AftEntry where
  price : Option JsNum
deriving DecidableEq, Repr

/-- Aftermath price-info response: HTTP ok flag and the response object
as key/value entries in insertion order. -/
structure AftResp where
  ok : Bool
  entries : List (String × AftEntry)
deriving DecidableEq, Repr

/-- A row of the tokens table as read and written through
DatabaseService (the TokenDB shape used by the engine). -/
structure TokenDB where
  coin_type : String
  price_usd : JsNum
  last_update : Int
  metadata : String
deriving DecidableEq, Repr

/-- Environment of one getTokenPrice call: the current clock, the cache
record for the requested identifier (or a storage error), whether the
post-resolution cache write fails, and the parsed outcome of every
external call per call site and retry attempt (Except.error models a
thrown fetch/parse error). -/
structure Env where
  now : Int
  cacheRead : Except Unit (Option TokenDB)
  writeFails : Bool
  sdk7k : Except Unit (Option JsNum)
  gecko : Nat → Except Unit GTResp
  dsFull : Nat → Except Unit DSResp
  dsContract : Nat → Except Unit DSResp
  cgSimple : String → Nat → Except Unit CGResp
  gtCgid : Nat → Except Unit GTCgidResp
  cgSearch : Nat → Except Unit CGSearchResp
  hop : Nat → Except Unit HopResp
  aftermath : Nat → Except Unit AftResp
  batch7k : Except Unit (Option (List (String × JsNum)))
  dsSui : Nat → Except Unit DSResp

/-- CACHE_DURATION (source line 46): 5 minutes in milliseconds. -/
def CACHE_DURATION : Int := 5 * 60 * 1000

/-- COINGECKO_ID_MAP (source lines 50-59). -/
def COINGECKO_ID_MAP : List (String × String) :=
  [("0x2::sui::SUI", "sui"),
   ("0xdba34672e30cb065b1f93e3ab55318768fd6fef66c15942c9f7cb846e2f900e7::usdc::USDC", "usd-coin"),
   ("0x5d4b302506645c37ff133b98c4b50a5ae14841659738d6d733d59d0d217a93bf::coin::COIN", "tether"),
   ("0xa99b8952d4f7d947ea77fe0ecdcc9e5fc0bcab2841d6e2a5aa00c3044e5544b5::navx::NAVX", "navi-protocol"),
   ("0x06864a6f921804860930db6ddbe2e16acdf8504495ea7481637a1c8b9a8fe54b::cetus::CETUS", "cetus-protocol"),
   ("0xce7ff77a83ea0cb6fd39bd8748e2ec89a3f41e8efdc3f4eb123e0ca37b184db2::buck::BUCK", "bucket-protocol"),
   ("0xbde4ba4c2e274a60ce15c1cfff9e5c42e136a8bc::afsui::AFSUI", "aftermath-staked-sui"),
   ("0xfe3afec26c59e874f3c1d60b8203cb3852d2bb2aa415df9548b8d688e6683f93::alpha::ALPHA", "alphafi")]

/-- getCachedPrice (source lines 128-142): storage errors and missing
records give null; a record older than CACHE_DURATION or with price
strictly equal to 0 gives null; otherwise the stored price. -/
def getCachedPrice (env : Env) : Option JsNum :=
  match env.cacheRead with
  | .error _ => none
  | .ok none => none
  | .ok (some tokenData) =>
    if env.now - tokenData.last_update > CACHE_DURATION then none
    else if jsEqZero tokenData.price_usd then none
    else some tokenData.price_usd

/-- setCachedPrice (source lines 144-155): attempts the saveToken
upsert; a storage error is caught, logged and swallowed.  Returns the
list of records actually persisted (empty when the write fails). -/
def setCachedPrice (writeFails : Bool) (rec : TokenDB) : List TokenDB :=
  if writeFails then [] else [rec]

/-- get7kPrice (source lines 159-171): a thrown SDK error gives null;
otherwise the resolved value is returned iff it passes isValidPrice. -/
def get7kPrice (env : Env) : Option JsNum :=
  match env.sdk7k with
  | .error _ => none
  | .ok v => if isValidPrice v then v else none

/-- Body of the getGeckoTerminalPrice retry operation (source lines
177-201). -/
def geckoBody (r : Except Unit GTResp) : Except Unit (Option JsNum) :=
  match r with
  | .error e => .error e
  | .ok resp =>
    if resp.ok = false then .ok none
    else
      match resp.price_usd with
      | some priceStr =>
        if priceStr.val ≠ "" then
          if isValidPriceN priceStr.num then .ok (some priceStr.num) else .ok none
        else .ok none
      | none => .ok none

/-- getGeckoTerminalPrice (source lines 175-202) with the retry
bookkeeping exposed: result, attempts performed, delays waited. -/
def getGeckoTerminalPriceFull (env : Env) :
    Option (Option JsNum) × Nat × List Nat :=
  retryOperation (fun i => geckoBody (env.gecko i)) 2 800

/-- getGeckoTerminalPrice (source lines 175-202). -/
def getGeckoTerminalPrice (env : Env) : Option JsNum :=
  (getGeckoTerminalPriceFull env).1.join

/-- The two DexScreener pair filters (source lines 237-239): chainId is
the string sui or falsy, and liquidity?.usd > 0. -/
def dsFiltered (ps : List DSPair) : List DSPair :=
  (ps.filter fun p => p.chainId == "sui" || p.chainId == "").filter
    fun p => jsGtZeroOpt p.liquidity

/-- The sort key b.liquidity.usd of a pair (post-filter the liquidity
object is always present). -/
def liqUsd (p : DSPair) : JsNum :=
  p.liquidity.getD JsNum.nan

/-- First element of the pairs array after the descending stable sort by
liquidity (source line 246): the earliest pair of maximal liquidity. -/
def pickBest (b : DSPair) (l : List DSPair) : DSPair :=
  l.foldl (fun best p => if jsGt (liqUsd p) (liqUsd best) then p else best) b

/-- Shared continuation of getDexScreenerPrice once a nonempty pairs
array is at hand (source lines 236-254). -/
def dsProceed (ps : List DSPair) : Option JsNum :=
  match dsFiltered ps with
  | [] => none
  | h :: tl =>
    let bestPool := pickBest h tl
    if isValidPriceN bestPool.priceUsd.num then some bestPool.priceUsd.num
    else none

/-- Contract-address fallback query of getDexScreenerPrice (source lines
220-234). -/
def dsFallback (fb : Except Unit DSResp) : Except Unit (Option JsNum) :=
  match fb with
  | .error e => .error e
  | .ok r2 =>
    if r2.ok = false then .ok none
    else
      match r2.pairs with
      | some ps2 => if ps2.isEmpty then .ok none else .ok (dsProceed ps2)
      | none => .ok none

/-- Body of the getDexScreenerPrice retry operation (source lines
208-255). -/
def dsBody (full fb : Except Unit DSResp) : Except Unit (Option JsNum) :=
  match full with
  | .error e => .error e
  | .ok r =>
    if r.ok = false then .ok none
    else
      match r.pairs with
      | some ps => if ps.isEmpty then dsFallback fb else .ok (dsProceed ps)
      | none => dsFallback fb

/-- getDexScreenerPrice (source lines 206-256). -/
def getDexScreenerPrice (env : Env) : Option JsNum :=
  (retryOperation (fun i => dsBody (env.dsFull i) (env.dsContract i)) 2 800).1.join

/-- Body of the simple getCoinGeckoPrice retry operation (source lines
271-291). -/
def cgBody (coinId : String) (r : Except Unit CGResp) : Except Unit (Option JsNum) :=
  match r with
  | .error e => .error e
  | .ok resp =>
    if resp.ok = false then .ok none
    else
      let price := lookupKey resp.entries coinId
      if isValidPrice price then .ok price else .ok none

/-- Platform test of the CoinGecko search match (source lines 346-349):
the coin has a platforms object and some platform key contains sui. -/
def hasSuiPlatform (c : CGSearchCoin) : Bool :=
  match c.platforms with
  | some ps => ps.any fun p => jsIncludes p.toLower "sui"
  | none => false

/-- Step 1 of getCoinGeckoBySearch (source lines 303-330): GeckoTerminal
coingecko_coin_id lookup plus price fetch; every failure, including a
thrown fetch, is caught and falls through to step 2. -/
def searchStep1 (env : Env) (i : Nat) : Option JsNum :=
  match env.gtCgid i with
  | .error _ => none
  | .ok g =>
    if g.ok = false then none
    else
      match g.cgId with
      | some cgId =>
        if cgId ≠ "" then
          match env.cgSimple cgId i with
          | .error _ => none
          | .ok pr =>
            if pr.ok = false then none
            else
              let price := lookupKey pr.entries cgId
              if isValidPrice price then price else none
        else none
      | none => none

/-- Step 2 of getCoinGeckoBySearch (source lines 332-373): symbol search
against the CoinGecko search API; every failure is caught and gives
null. -/
def searchStep2 (env : Env) (tokenType : String) (i : Nat) : Option JsNum :=
  match env.cgSearch i with
  | .error _ => none
  | .ok s =>
    if s.ok = false then none
    else
      match s.coins with
      | none => none
      | some coins =>
        if coins.isEmpty then none
        else
          let symbol := (extractSymbol tokenType).toLower
          let m :=
            match coins.find? (fun c => c.symbol.toLower == symbol && hasSuiPlatform c) with
            | some c => some c
            | none => coins.find? fun c => c.symbol.toLower == symbol
          match m with
          | none => none
          | some mc =>
            match env.cgSimple mc.id i with
            | .error _ => none
            | .ok pr =>
              if pr.ok = false then none
              else
                let price := lookupKey pr.entries mc.id
                if isValidPrice price then price else none

/-- Body of the getCoinGeckoBySearch retry operation (source lines
302-376): both steps catch internally, so the body never throws. -/
def searchBodyFun (env : Env) (tokenType : String) (i : Nat) : Option JsNum :=
  match searchStep1 env i with
  | some p => some p
  | none => searchStep2 env tokenType i

/-- getCoinGeckoBySearch (source lines 298-377). -/
def getCoinGeckoBySearch (env : Env) (tokenType : String) : Option JsNum :=
  (retryOperation (fun i => Except.ok (searchBodyFun env tokenType i)) 2 800).1.join

/-- getCoinGeckoPrice (source lines 260-292): direct ID mapping first,
a symbol search for unmapped full coin types, otherwise the simple
price endpoint by id. -/
def getCoinGeckoPrice (env : Env) (coinIdOrType : String) : Option JsNum :=
  let knownId := lookupKey COINGECKO_ID_MAP coinIdOrType
  let coinId := knownId.getD coinIdOrType
  if knownId.isNone && jsIncludes coinIdOrType "::" then
    getCoinGeckoBySearch env coinIdOrType
  else
    (retryOperation (fun i => cgBody coinId (env.cgSimple coinId i)) 2 800).1.join

/-- Body of the getHopAggregatorPrice retry operation (source lines
383-410): the inner try/catch means the body never throws. -/
def hopBody (env : Env) (i : Nat) : Option JsNum :=
  match env.hop i with
  | .error _ => none
  | .ok r =>
    if r.ok = false then none
    else
      let amountOut := jsOr r.amount_out_with_fee r.amount_out
      match amountOut with
      | some a =>
        if jsTruthy a then
          let price := jsDiv1e6 a
          if isValidPriceN price then some price else none
        else none
      | none => none

/-- getHopAggregatorPrice (source lines 381-411): maxRetries 1. -/
def getHopAggregatorPrice (env : Env) : Option JsNum :=
  (retryOperation (fun i => Except.ok (hopBody env i)) 1 800).1.join

/-- Body of the getAftermathPrice retry operation (source lines
417-444): response object lookup by the requested coin type, falling
back to the value under the first key when absent; the inner try/catch
means the body never throws. -/
def aftBody (env : Env) (tokenType : String) (i : Nat) : Option JsNum :=
  match env.aftermath i with
  | .error _ => none
  | .ok r =>
    if r.ok = false then none
    else
      let priceInfo : Option AftEntry :=
        match lookupKey r.entries tokenType with
        | some e => some e
        | none => r.entries.head?.map fun kv => kv.2
      let price := priceInfo.bind fun e => e.price
      if isValidPrice price then price else none

/-- getAftermathPrice (source lines 415-445): maxRetries 1. -/
def getAftermathPrice (env : Env) (tokenType : String) : Option JsNum :=
  (retryOperation (fun i => Except.ok (aftBody env tokenType i)) 1 800).1.join

/-- get7kBatchPrice (source lines 449-467): no retry wrapper; batch SDK
lookup with fallback to the value under the first key of the returned
price map. -/
def get7kBatchPrice (env : Env) (tokenType : String) : Option JsNum :=
  match env.batch7k with
  | .error _ => none
  | .ok none => none
  | .ok (some priceMap) =>
    let price := jsOr (lookupKey priceMap tokenType)
      (priceMap.head?.map fun kv => kv.2)
    if isValidPrice price then price else none

/-- First pair of the array with a valid price (the final loop of
getDexScreenerViaSuiPrice, source lines 497-503). -/
def firstAnyPair (ps : List DSPair) : Option JsNum :=
  ps.findSome? fun p =>
    if isValidPriceN p.priceUsd.num then some p.priceUsd.num else none

/-- Body of the getDexScreenerViaSuiPrice retry operation (source lines
473-508): prefer a pair quoted in SUI, else scan all pairs; the inner
try/catch means the body never throws. -/
def dsSuiBody (env : Env) (i : Nat) : Option JsNum :=
  match env.dsSui i with
  | .error _ => none
  | .ok r =>
    if r.ok = false then none
    else
      match r.pairs with
      | none => none
      | some ps =>
        if ps.isEmpty then none
        else
          let suiPair := ps.find? fun p =>
            p.quoteAddr == "0x0000000000000000000000000000000000000000000000000000000000000002::sui::SUI" ||
            p.quoteSym == "SUI"
          let viaSui : Option JsNum :=
            match suiPair with
            | some sp =>
              if sp.priceUsd.val ≠ "" then
                if isValidPriceN sp.priceUsd.num then some sp.priceUsd.num else none
              else none
            | none => none
          match viaSui with
          | some p => some p
          | none => firstAnyPair ps

/-- getDexScreenerViaSuiPrice (source lines 471-509): maxRetries 1. -/
def getDexScreenerViaSuiPrice (env : Env) : Option JsNum :=
  (retryOperation (fun i => Except.ok (dsSuiBody env i)) 1 800).1.join

/-- The eight source adapters of the fallback chain. -/
inductive Src where
  | s7k : Src
  | gecko : Src
  | dexscreener : Src
  | coingecko : Src
  | aftermath : Src
  | hop : Src
  | batch7k : Src
  | dexSui : Src
deriving DecidableEq, Repr

/-- Dispatch of one source adapter on the requested coin type. -/
def runSrc (env : Env) (tokenType : String) : Src → Option JsNum
  | .s7k => get7kPrice env
  | .gecko => getGeckoTerminalPrice env
  | .dexscreener => getDexScreenerPrice env
  | .coingecko => getCoinGeckoPrice env tokenType
  | .aftermath => getAftermathPrice env tokenType
  | .hop => getHopAggregatorPrice env
  | .batch7k => get7kBatchPrice env tokenType
  | .dexSui => getDexScreenerViaSuiPrice env

/-- One guarded fallback step of getTokenPrice: the code line
if (!isValidPrice(price)) price = await adapter(...), instrumented with
the trace of adapters invoked. -/
def chainStep (env : Env) (tokenType : String) (st : Option JsNum × List Src)
    (s : Src) : Option JsNum × List Src :=
  if isValidPrice st.1 then st else (runSrc env tokenType s, st.2 ++ [s])

/-- The sequence of guarded fallback steps of getTokenPrice over a list
of sources. -/
def runChain (env : Env) (tokenType : String) (st : Option JsNum × List Src) :
    List Src → Option JsNum × List Src
  | [] => st
  | s :: rest => runChain env tokenType (chainStep env tokenType st s) rest

/-- Outcome of one getTokenPrice call: the returned value, the records
passed to the cache write, the records actually persisted, and the
ordered trace of source adapters invoked. -/
structure PriceResult where
  result : Option JsNum
  attempted : List TokenDB
  performed : List TokenDB
  trace : List Src
deriving DecidableEq, Repr

/-- Final cache-and-return step of getTokenPrice (source lines 552-557
and 594-602): a valid price is written through setCachedPrice and
returned, anything else gives null with no write. -/
def finalize (env : Env) (tokenType : String) (st : Option JsNum × List Src) :
    PriceResult :=
  match st.1 with
  | some p =>
    if isValidPriceN p then
      let w : TokenDB := ⟨tokenType, p, env.now, "\x7b\x7d"⟩
      ⟨some p, [w], setCachedPrice env.writeFails w, st.2⟩
    else ⟨none, [], [], st.2⟩
  | none => ⟨none, [], [], st.2⟩

/-- getTokenPrice (source lines 532-607): cache check, then for the SUI
identifier the shortened chain CoinGecko-by-id, 7k, GeckoTerminal,
DexScreener, and for every other identifier the chain 7k,
GeckoTerminal, DexScreener, CoinGecko, Aftermath, Hop, 7k batch,
DexScreener-via-SUI; the first valid price is cached and returned; the
outer try/catch makes the function total (it never raises). -/
def getTokenPrice (env : Env) (tokenType : String) : PriceResult :=
  match getCachedPrice env with
  | some cachedPrice => ⟨some cachedPrice, [], [], []⟩
  | none =>
    if tokenType = "0x2::sui::SUI" then
      finalize env tokenType
        (runChain env tokenType (getCoinGeckoPrice env "sui", [Src.coingecko])
          [Src.s7k, Src.gecko, Src.dexscreener])
    else
      finalize env tokenType
        (runChain env tokenType (get7kPrice env, [Src.s7k])
          [Src.gecko, Src.dexscreener, Src.coingecko, Src.aftermath,
           Src.hop, Src.batch7k, Src.dexSui])

/-- The order in which the code tries the sources for a generic
identifier. -/
def codeOrder : List Src :=
  [Src.s7k, Src.gecko, Src.dexscreener, Src.coingecko, Src.aftermath,
   Src.hop, Src.batch7k, Src.dexSui]

/-- The order claimed by the specification for a generic identifier:
the swap-aggregator (Hop) quote at position 5 before the alternative
aggregator (Aftermath) at position 6. -/
def claimedOrderC1 : List Src :=
  [Src.s7k, Src.gecko, Src.dexscreener, Src.coingecko, Src.hop,
   Src.aftermath, Src.batch7k, Src.dexSui]

/-- The trace an orchestrator produces when it tries the given sources
in order and stops at the first valid result. -/
def firstValidTrace (env : Env) (tokenType : String) : List Src → List Src
  | [] => []
  | s :: rest =>
    if isValidPrice (runSrc env tokenType s) then [s]
    else s :: firstValidTrace env tokenType rest

-- ─── Helper lemmas ───────────────────────────────────────────────────

theorem chainStep_of_valid (env : Env) (t : String) (st : Option JsNum × List Src)
    (s : Src) (h : isValidPrice st.1 = true) : chainStep env t st s = st := by
  simp [chainStep, h]

theorem chainStep_of_invalid (env : Env) (t : String) (st : Option JsNum × List Src)
    (s : Src) (h : isValidPrice st.1 = false) :
    chainStep env t st s = (runSrc env t s, st.2 ++ [s]) := by
  simp [chainStep, h]

theorem runChain_of_valid (env : Env) (t : String) (st : Option JsNum × List Src)
    (h : isValidPrice st.1 = true) : ∀ l, runChain env t st l = st := by
  intro l
  induction l with
  | nil => rfl
  | cons s rest ih => rw [runChain, chainStep_of_valid env t st s h]; exact ih

theorem runChain_trace (env : Env) (t : String) :
    ∀ (l : List Src) (st : Option JsNum × List Src), isValidPrice st.1 = false →
      (runChain env t st l).2 = st.2 ++ firstValidTrace env t l := by
  intro l
  induction l with
  | nil => intro st _; simp [runChain, firstValidTrace]
  | cons s rest ih =>
    intro st h
    rw [runChain, chainStep_of_invalid env t st s h, firstValidTrace]
    by_cases hv : isValidPrice (runSrc env t s) = true
    · rw [runChain_of_valid env t _ hv rest]
      simp [hv]
    · have hv' : isValidPrice (runSrc env t s) = false := by
        simpa using hv
      rw [ih _ (by simpa using hv')]
      simp [hv']

theorem runChain_invalid_all (env : Env) (t : String) :
    ∀ (l : List Src) (st : Option JsNum × List Src), isValidPrice st.1 = false →
      (∀ s ∈ l, isValidPrice (runSrc env t s) = false) →
      isValidPrice (runChain env t st l).1 = false := by
  intro l
  induction l with
  | nil => intro st h _; exact h
  | cons s rest ih =>
    intro st h hall
    rw [runChain, chainStep_of_invalid env t st s h]
    exact ih _ (hall s (by simp)) fun x hx => hall x (by simp [hx])

theorem finalize_trace (env : Env) (t : String) (st : Option JsNum × List Src) :
    (finalize env t st).trace = st.2 := by
  unfold finalize
  split
  · split <;> rfl
  · rfl

theorem finalize_of_invalid (env : Env) (t : String) (st : Option JsNum × List Src)
    (h : isValidPrice st.1 = false) : finalize env t st = ⟨none, [], [], st.2⟩ := by
  unfold finalize
  cases hst : st.1 with
  | none => rfl
  | some p =>
    have hp : isValidPriceN p = false := by
      rw [hst] at h; simpa [isValidPrice] using h
    simp [hp]

theorem finalize_of_valid (env : Env) (t : String) (st : Option JsNum × List Src)
    (p : JsNum) (h : st.1 = some p) (hp : isValidPriceN p = true) :
    finalize env t st =
      ⟨some p, [⟨t, p, env.now, "\x7b\x7d"⟩],
        setCachedPrice env.writeFails ⟨t, p, env.now, "\x7b\x7d"⟩, st.2⟩ := by
  unfold finalize
  rw [h]
  simp [hp]

theorem getTokenPrice_cacheHit (env : Env) (t : String) (p : JsNum)
    (h : getCachedPrice env = some p) : getTokenPrice env t = ⟨some p, [], [], []⟩ := by
  unfold getTokenPrice
  rw [h]

theorem getTokenPrice_missGeneric (env : Env) (t : String)
    (ht : ¬ t = "0x2::sui::SUI") (hc : getCachedPrice env = none) :
    getTokenPrice env t =
      finalize env t (runChain env t (get7kPrice env, [Src.s7k])
        [Src.gecko, Src.dexscreener, Src.coingecko, Src.aftermath,
         Src.hop, Src.batch7k, Src.dexSui]) := by
  unfold getTokenPrice
  rw [hc]
  simp [ht]

theorem getTokenPrice_missSui (env : Env) (hc : getCachedPrice env = none) :
    getTokenPrice env "0x2::sui::SUI" =
      finalize env "0x2::sui::SUI"
        (runChain env "0x2::sui::SUI" (getCoinGeckoPrice env "sui", [Src.coingecko])
          [Src.s7k, Src.gecko, Src.dexscreener]) := by
  unfold getTokenPrice
  rw [hc]
  simp

theorem jsGt_irrefl (a : JsNum) : jsGt a a = false := by
  cases a <;> simp [jsGt]

theorem jsGt_trans {a b c : JsNum} :
    jsGt a b = true → jsGt b c = true → jsGt a c = true := by
  cases a <;> cases b <;> cases c <;> simp [jsGt] <;>
    exact fun h1 h2 => h2.trans h1

/-- Liquidity values surviving the positivity filter: finite positive or
positive infinity (never NaN or negative infinity). -/
def liqOk : JsNum → Bool
  | .fin q => decide (0 < q)
  | .posInf => true
  | _ => false

theorem jsGt_not_gt {a b c : JsNum} (ha : liqOk a = true) (hb : liqOk b = true) :
    jsGt a b = false → jsGt a c = true → jsGt b c = true := by
  cases a <;> cases b <;> cases c <;>
    simp_all [jsGt, liqOk] <;>
    exact fun h1 h2 => lt_of_lt_of_le h2 h1

theorem pickBest_cons_gt (b p : DSPair) (tl : List DSPair)
    (hgt : jsGt (liqUsd p) (liqUsd b) = true) :
    pickBest b (p :: tl) = pickBest p tl := by
  simp [pickBest, List.foldl_cons, hgt]

theorem pickBest_cons_ngt (b p : DSPair) (tl : List DSPair)
    (hgt : jsGt (liqUsd p) (liqUsd b) = false) :
    pickBest b (p :: tl) = pickBest b tl := by
  simp [pickBest, List.foldl_cons, hgt]

theorem pickBest_mem (b : DSPair) (l : List DSPair) : pickBest b l ∈ b :: l := by
  induction l generalizing b with
  | nil => simp [pickBest]
  | cons p tl ih =>
    by_cases hgt : jsGt (liqUsd p) (liqUsd b) = true
    · rw [pickBest_cons_gt b p tl hgt]
      exact List.mem_cons_of_mem b (ih p)
    · rw [pickBest_cons_ngt b p tl (by simpa using hgt)]
      rcases List.mem_cons.mp (ih b) with h | h
      · rw [h]; exact List.mem_cons_self b _
      · exact List.mem_cons_of_mem b (List.mem_cons_of_mem p h)

theorem pickBest_not_gt (b : DSPair) (l : List DSPair)
    (hb : liqOk (liqUsd b) = true) (hl : ∀ p ∈ l, liqOk (liqUsd p) = true) :
    ∀ x ∈ b :: l, jsGt (liqUsd x) (liqUsd (pickBest b l)) = false := by
  induction l generalizing b with
  | nil =>
    intro x hx
    simp only [List.mem_singleton] at hx
    subst hx
    simp [pickBest, jsGt_irrefl]
  | cons p tl ih =>
    have hp : liqOk (liqUsd p) = true := hl p (by simp)
    have htl : ∀ q ∈ tl, liqOk (liqUsd q) = true := fun q hq => hl q (by simp [hq])
    intro x hx
    by_cases hgt : jsGt (liqUsd p) (liqUsd b) = true
    · rw [pickBest_cons_gt b p tl hgt]
      have hmax := ih p hp htl
      rcases List.mem_cons.mp hx with rfl | hx2
      · by_contra hcon
        have hxb : jsGt (liqUsd x) (liqUsd (pickBest p tl)) = true := by
          simpa using hcon
        have := jsGt_trans hgt hxb
        have hno := hmax p (by simp)
        rw [hno] at this
        exact Bool.false_ne_true this
      · exact hmax x hx2
    · have hgt' : jsGt (liqUsd p) (liqUsd b) = false := by simpa using hgt
      rw [pickBest_cons_ngt b p tl hgt']
      have hmax := ih b hb htl
      rcases List.mem_cons.mp hx with rfl | hx2
      · exact hmax x (by simp)
      · rcases List.mem_cons.mp hx2 with rfl | hx3
        · by_contra hcon
          have hxbest : jsGt (liqUsd x) (liqUsd (pickBest b tl)) = true := by
            simpa using hcon
          have := jsGt_not_gt hp hb hgt' hxbest
          have hno := hmax b (by simp)
          rw [hno] at this
          exact Bool.false_ne_true this
        · exact hmax x (by simp [hx3])

theorem dsFiltered_liqOk (ps : List DSPair) :
    ∀ p ∈ dsFiltered ps, liqOk (liqUsd p) = true := by
  intro p hp
  have h2 := (List.mem_filter.mp hp).2
  cases hliq : p.liquidity with
  | none => rw [hliq] at h2; simp [jsGtZeroOpt] at h2
  | some u =>
    rw [hliq] at h2
    cases u <;> simp_all [jsGtZeroOpt, liqUsd, liqOk, hliq]

theorem retryGo_attempts_le {α : Type} (op : Nat → Except Unit α) (d : Nat) :
    ∀ (fuel i : Nat), (retryGo op d i fuel).2.1 ≤ fuel := by
  intro fuel
  induction fuel with
  | zero => intro i; simp [retryGo]
  | succ f ih =>
    intro i
    simp only [retryGo]
    cases hop : op i with
    | ok v => simp
    | error e =>
      by_cases hf : f = 0
      · simp [hf]
      · simp only [if_neg hf]
        have := ih (i + 1)
        omega

theorem retryGo_attempts_pos {α : Type} (op : Nat → Except Unit α) (d : Nat) :
    ∀ (fuel i : Nat), 0 < fuel → 1 ≤ (retryGo op d i fuel).2.1 := by
  intro fuel i hf
  cases fuel with
  | zero => omega
  | succ f =>
    simp only [retryGo]
    cases hop : op i with
    | ok v => simp
    | error e =>
      by_cases h0 : f = 0
      · simp [h0]
      · simp only [if_neg h0]
        omega

theorem retryGo_delays {α : Type} (op : Nat → Except Unit α) (d : Nat) :
    ∀ (fuel i : Nat), (retryGo op d i fuel).2.2 =
      (List.range ((retryGo op d i fuel).2.1 - 1)).map fun j => d * (i + j + 1) := by
  intro fuel
  induction fuel with
  | zero => intro i; simp [retryGo]
  | succ f ih =>
    intro i
    simp only [retryGo]
    cases hop : op i with
    | ok v => simp
    | error e =>
      by_cases hf : f = 0
      · simp [hf]
      · simp only [if_neg hf]
        have hpos : 1 ≤ (retryGo op d (i + 1) f).2.1 :=
          retryGo_attempts_pos op d f (i + 1) (Nat.pos_of_ne_zero hf)
        obtain ⟨m, hm⟩ : ∃ m, (retryGo op d (i + 1) f).2.1 = m + 1 :=
          ⟨(retryGo op d (i + 1) f).2.1 - 1, by omega⟩
        have hih := ih (i + 1)
        rw [hm] at hih
        simp only [Nat.add_sub_cancel] at hih
        rw [hih, hm]
        simp only [Nat.add_sub_cancel, List.range_succ_eq_map, List.map_cons,
          List.map_map]
        congr 1
        apply List.map_congr_left
        intro j hj
        simp only [Function.comp_apply]
        congr 1
        omega

theorem retryGo_all_fail {α : Type} (op : Nat → Except Unit α) (d : Nat)
    (hop : ∀ j, op j = Except.error ()) :
    ∀ (fuel i : Nat), (retryGo op d i fuel).1 = none ∧ (retryGo op d i fuel).2.1 = fuel := by
  intro fuel
  induction fuel with
  | zero => intro i; simp [retryGo]
  | succ f ih =>
    intro i
    simp only [retryGo, hop i]
    by_cases hf : f = 0
    · simp [hf]
    · simp only [if_neg hf]
      have := ih (i + 1)
      exact ⟨this.1, by omega⟩

theorem retryGo_ok {α : Type} (op : Nat → Except Unit α) (d i fuel : Nat) (v : α)
    (hf : 0 < fuel) (h : op i = Except.ok v) :
    retryGo op d i fuel = (some v, 1, []) := by
  cases fuel with
  | zero => omega
  | succ f => simp [retryGo, h]

-- ─── Concrete environments for witnesses and counterexamples ─────────

/-- A base environment: empty cache, working storage, and every external
source failing (non-OK HTTP responses, a throwing SDK). -/
def envFail : Env where
  now := 0
  cacheRead := Except.ok none
  writeFails := false
  sdk7k := Except.error ()
  gecko := fun _ => Except.ok ⟨false, none⟩
  dsFull := fun _ => Except.ok ⟨false, none⟩
  dsContract := fun _ => Except.ok ⟨false, none⟩
  cgSimple := fun _ _ => Except.ok ⟨false, []⟩
  gtCgid := fun _ => Except.ok ⟨false, none⟩
  cgSearch := fun _ => Except.ok ⟨false, none⟩
  hop := fun _ => Except.ok ⟨false, none, none⟩
  aftermath := fun _ => Except.ok ⟨false, []⟩
  batch7k := Except.error ()
  dsSui := fun _ => Except.ok ⟨false, none⟩

/-- The CoinGecko adapter called on the full SUI coin type takes the
known-ID mapping to the id sui and is the same lookup as when called on
the literal id sui. -/
theorem coinGecko_sui_eq (env : Env) :
    getCoinGeckoPrice env "0x2::sui::SUI" = getCoinGeckoPrice env "sui" := rfl

/-- Characterization of a cache hit: a record exists, its age is at most
CACHE_DURATION, and its price is not strictly equal to zero. -/
theorem getCachedPrice_eq_some (env : Env) (p : JsNum) :
    getCachedPrice env = some p ↔
      ∃ td, env.cacheRead = Except.ok (some td) ∧
        env.now - td.last_update ≤ CACHE_DURATION ∧
        jsEqZero td.price_usd = false ∧ p = td.price_usd := by
  constructor
  · intro h
    unfold getCachedPrice at h
    cases hcr : env.cacheRead with
    | error e => rw [hcr] at h; simp at h
    | ok o =>
      cases o with
      | none => rw [hcr] at h; simp at h
      | some td =>
        rw [hcr] at h
        by_cases hage : env.now - td.last_update > CACHE_DURATION
        · simp [hage] at h
        · by_cases hz : jsEqZero td.price_usd = true
          · simp [hage, hz] at h
          · have hz' : jsEqZero td.price_usd = false := by simpa using hz
            simp [hage, hz'] at h
            exact ⟨td, rfl, by omega, hz', h.symm⟩
  · rintro ⟨td, hcr, hage, hz, hp⟩
    unfold getCachedPrice
    rw [hcr]
    have hage' : ¬ env.now - td.last_update > CACHE_DURATION := by omega
    simp [hage', hz, hp]

/-- The finalize step only ever returns or writes validator-accepted
prices. -/
theorem finalize_props (env : Env) (t : String) (st : Option JsNum × List Src) :
    (∀ w ∈ (finalize env t st).attempted, isValidPriceN w.price_usd = true) ∧
    (∀ p, (finalize env t st).result = some p → isValidPriceN p = true) := by
  unfold finalize
  cases hst : st.1 with
  | none => exact ⟨by simp, by simp⟩
  | some p =>
    by_cases hv : isValidPriceN p = true
    · simp only [hv, if_true]
      refine ⟨?_, ?_⟩
      · intro w hw
        simp only [List.mem_singleton] at hw
        rw [hw]
        exact hv
      · intro p2 hp2
        simp only [Option.some.injEq] at hp2
        rw [← hp2]
        exact hv
    · simp only [Bool.not_eq_true] at hv
      simp [hv]

/-- When the write fails, finalize performs no write but returns the
same result as with working storage. -/
theorem finalize_writeFails (env : Env) (t : String) (st : Option JsNum × List Src)
    (hw : env.writeFails = true) :
    (finalize env t st).performed = [] ∧
    (finalize env t st).result = (finalize { env with writeFails := false } t st).result := by
  unfold finalize
  cases st.1 with
  | none => exact ⟨rfl, rfl⟩
  | some p =>
    by_cases hv : isValidPriceN p = true
    · simp [hv, setCachedPrice, hw]
    · simp only [Bool.not_eq_true] at hv
      simp [hv]

-- ─── C1 ──────────────────────────────────────────────────────────────

/-- Environment for the C1 counterexample: every source fails except the
Hop quote (valid, 9 dollars) and the Aftermath lookup (valid, 7
dollars). -/
def envC1 : Env :=
  { envFail with
    aftermath := fun _ =>
      Except.ok ⟨true, [("0xabc::mod::TOK", ⟨some (JsNum.fin 7)⟩)]⟩,
    hop := fun _ => Except.ok ⟨true, some (JsNum.fin 9000000), none⟩ }

/-- C1: counterexample to the claimed adapter order.  With Hop and
Aftermath both able to deliver a valid price and everything earlier
failing, getTokenPrice invokes Aftermath fifth and returns its price 7
without ever invoking Hop, whereas the claimed policy order (Hop fifth,
Aftermath sixth) would stop at Hop with price 9: the produced invocation
trace differs from the trace the claimed order prescribes. -/
theorem C1_counterexample :
    (getTokenPrice envC1 "0xabc::mod::TOK").trace =
      [Src.s7k, Src.gecko, Src.dexscreener, Src.coingecko, Src.aftermath] ∧
    (getTokenPrice envC1 "0xabc::mod::TOK").result = some (JsNum.fin 7) ∧
    isValidPrice (runSrc envC1 "0xabc::mod::TOK" Src.hop) = true ∧
    firstValidTrace envC1 "0xabc::mod::TOK" claimedOrderC1 =
      [Src.s7k, Src.gecko, Src.dexscreener, Src.coingecko, Src.hop] ∧
    (getTokenPrice envC1 "0xabc::mod::TOK").trace ≠
      firstValidTrace envC1 "0xabc::mod::TOK" claimedOrderC1 := by
  have h9 : jsDiv1e6 (JsNum.fin 9000000) = JsNum.fin 9 := by
    simp only [jsDiv1e6, JsNum.fin.injEq]
    norm_num
  have htr : jsTruthy (JsNum.fin 9000000) = true := by decide
  have hv9 : isValidPriceN (JsNum.fin 9) = true := by decide
  have hhop : getHopAggregatorPrice envC1 = some (JsNum.fin 9) := by
    show (retryGo (fun i => Except.ok (hopBody envC1 i)) 800 0 1).1.join =
      some (JsNum.fin 9)
    rw [retryGo_ok _ 800 0 1 (hopBody envC1 0) (by omega) rfl]
    show hopBody envC1 0 = some (JsNum.fin 9)
    simp [hopBody, envC1, envFail, jsOr, htr, h9, hv9]
  have hvalhop : isValidPrice (runSrc envC1 "0xabc::mod::TOK" Src.hop) = true := by
    show isValidPrice (getHopAggregatorPrice envC1) = true
    rw [hhop]
    decide
  have hs7k : isValidPrice (runSrc envC1 "0xabc::mod::TOK" Src.s7k) = false := by decide
  have hgk : isValidPrice (runSrc envC1 "0xabc::mod::TOK" Src.gecko) = false := by decide
  have hds : isValidPrice (runSrc envC1 "0xabc::mod::TOK" Src.dexscreener) = false := by
    decide
  have hcg : isValidPrice (runSrc envC1 "0xabc::mod::TOK" Src.coingecko) = false := by
    decide
  have htrace4 : firstValidTrace envC1 "0xabc::mod::TOK" claimedOrderC1 =
      [Src.s7k, Src.gecko, Src.dexscreener, Src.coingecko, Src.hop] := by
    simp [claimedOrderC1, firstValidTrace, hs7k, hgk, hds, hcg, hvalhop]
  refine ⟨by decide, by decide, hvalhop, htrace4, ?_⟩
  rw [htrace4]
  decide

/-- C1 (amended): for every identifier other than the SUI base asset
with a stale or absent cache record, getTokenPrice invokes the source
adapters strictly in the code policy order 7k, GeckoTerminal,
DexScreener, CoinGecko, Aftermath, Hop, 7k batch, DexScreener SUI-pair
scan, and stops at the first adapter yielding a valid price, never
invoking any later adapter after a valid result. -/
theorem C1_policy_order (env : Env) (t : String) (ht : ¬ t = "0x2::sui::SUI")
    (hc : getCachedPrice env = none) :
    (getTokenPrice env t).trace = firstValidTrace env t codeOrder := by
  rw [getTokenPrice_missGeneric env t ht hc, finalize_trace]
  by_cases h7 : isValidPrice (get7kPrice env) = true
  · rw [runChain_of_valid env t _ h7]
    simp [firstValidTrace, codeOrder, runSrc, h7]
  · have h7' : isValidPrice (get7kPrice env) = false := by simpa using h7
    rw [runChain_trace env t _ _ h7']
    simp [firstValidTrace, codeOrder, runSrc, h7']

/-- C1 witness: the amended order theorem applied to the all-fail
environment. -/
theorem C1_policy_order_witness :
    (getTokenPrice envFail "0xabc::mod::TOK").trace =
      firstValidTrace envFail "0xabc::mod::TOK" codeOrder :=
  C1_policy_order envFail "0xabc::mod::TOK" (by decide) rfl

-- ─── C2 ──────────────────────────────────────────────────────────────

/-- Cache record for the C2 counterexample: price -1, fresh age. -/
def recC2 : TokenDB := ⟨"0xdef::mod::TOK", JsNum.fin (-1), 0, ""⟩

/-- Environment for the C2 counterexample. -/
def envC2 : Env := { envFail with cacheRead := Except.ok (some recC2) }

/-- C2: counterexample.  A fresh record whose stored price is -1 is
answered as a cache hit (the code only rejects a price strictly equal to
0), although -1 is not strictly greater than zero, refuting the claimed
freshness characterization. -/
theorem C2_counterexample :
    envC2.cacheRead = Except.ok (some recC2) ∧
    recC2.price_usd = JsNum.fin (-1) ∧
    envC2.now - recC2.last_update ≤ CACHE_DURATION ∧
    getCachedPrice envC2 = some (JsNum.fin (-1)) ∧
    isValidPriceN (JsNum.fin (-1)) = false := by
  exact ⟨rfl, rfl, by decide, by decide, by decide⟩

/-- C2 (amended): the cache answers fresh iff a record exists, its
stored price is not strictly equal to zero, and now minus last_update is
at most the 5-minute TTL; whenever the record is fresh, getTokenPrice
returns the cached price with no source adapter invoked and no cache
write; a record with price exactly zero or age beyond the TTL is a
cache miss. -/
theorem C2_cache_freshness (env : Env) (p : JsNum) :
    (getCachedPrice env = some p ↔
      ∃ td, env.cacheRead = Except.ok (some td) ∧
        env.now - td.last_update ≤ CACHE_DURATION ∧
        jsEqZero td.price_usd = false ∧ p = td.price_usd) ∧
    (∀ t, getCachedPrice env = some p →
      getTokenPrice env t = ⟨some p, [], [], []⟩) :=
  ⟨getCachedPrice_eq_some env p, fun t h => getTokenPrice_cacheHit env t p h⟩

/-- Cache record for the C2 witness: a fresh positive price. -/
def recC2w : TokenDB := ⟨"0xaaa::bbb::CCC", JsNum.fin 2, 0, ""⟩

/-- Environment for the C2 witness. -/
def envC2w : Env := { envFail with cacheRead := Except.ok (some recC2w) }

/-- C2 witness: a fresh record with price 2 is returned as a hit with no
adapter invocation. -/
theorem C2_cache_freshness_witness :
    getCachedPrice envC2w = some (JsNum.fin 2) ∧
    getTokenPrice envC2w "0xaaa::bbb::CCC" = ⟨some (JsNum.fin 2), [], [], []⟩ := by
  have h := (C2_cache_freshness envC2w (JsNum.fin 2)).1.mpr
    ⟨recC2w, rfl, by decide, by decide, rfl⟩
  exact ⟨h, (C2_cache_freshness envC2w (JsNum.fin 2)).2 "0xaaa::bbb::CCC" h⟩

-- ─── C3 ──────────────────────────────────────────────────────────────

/-- C3: with a stale or absent cache record and every source adapter
failing to yield a valid price, getTokenPrice returns absent and makes
no cache write of any kind (the model is a total function, so no
exception is raised). -/
theorem C3_all_fail (env : Env) (t : String) (hc : getCachedPrice env = none)
    (hall : ∀ s : Src, isValidPrice (runSrc env t s) = false) :
    (getTokenPrice env t).result = none ∧
    (getTokenPrice env t).attempted = [] ∧
    (getTokenPrice env t).performed = [] := by
  by_cases ht : t = "0x2::sui::SUI"
  · subst ht
    rw [getTokenPrice_missSui env hc]
    have hcg : isValidPrice (getCoinGeckoPrice env "sui") = false := by
      have h := hall Src.coingecko
      rw [runSrc, coinGecko_sui_eq] at h
      exact h
    have hinv := runChain_invalid_all env "0x2::sui::SUI"
      [Src.s7k, Src.gecko, Src.dexscreener]
      (getCoinGeckoPrice env "sui", [Src.coingecko]) hcg
      (fun s _ => hall s)
    rw [finalize_of_invalid _ _ _ hinv]
    exact ⟨rfl, rfl, rfl⟩
  · rw [getTokenPrice_missGeneric env t ht hc]
    have h7 : isValidPrice (get7kPrice env) = false := hall Src.s7k
    have hinv := runChain_invalid_all env t
      [Src.gecko, Src.dexscreener, Src.coingecko, Src.aftermath,
       Src.hop, Src.batch7k, Src.dexSui]
      (get7kPrice env, [Src.s7k]) h7 (fun s _ => hall s)
    rw [finalize_of_invalid _ _ _ hinv]
    exact ⟨rfl, rfl, rfl⟩

/-- C3 witness: the all-fail environment yields absent with an unchanged
cache. -/
theorem C3_all_fail_witness :
    (getTokenPrice envFail "0xaaa::bbb::CCC").result = none ∧
    (getTokenPrice envFail "0xaaa::bbb::CCC").attempted = [] ∧
    (getTokenPrice envFail "0xaaa::bbb::CCC").performed = [] :=
  C3_all_fail envFail "0xaaa::bbb::CCC" rfl (fun s => by cases s <;> rfl)

-- ─── C4 ──────────────────────────────────────────────────────────────

/-- Cache record for the C4 counterexample: price -2, fresh age. -/
def recC4 : TokenDB := ⟨"0xdef::mod::TOK2", JsNum.fin (-2), 0, ""⟩

/-- Environment for the C4 counterexample. -/
def envC4 : Env := { envFail with cacheRead := Except.ok (some recC4) }

/-- C4: counterexample.  getTokenPrice returns the negative value -2
read from a fresh cache record, so a validator-failing value can be
returned to the caller. -/
theorem C4_counterexample :
    (getTokenPrice envC4 "0xdef::mod::TOK2").result = some (JsNum.fin (-2)) ∧
    isValidPrice (getTokenPrice envC4 "0xdef::mod::TOK2").result = false := by
  exact ⟨by decide, by decide⟩

/-- C4 (amended): every price passed to the cache write satisfies the
validator, and every non-absent return value either satisfies the
validator or is the nonzero price of a fresh cache record; in
particular, when every cache record price is either the zero sentinel or
validator-accepted, every non-absent return value is validator-accepted. -/
theorem C4_validator_gate (env : Env) (t : String) :
    (∀ w ∈ (getTokenPrice env t).attempted, isValidPriceN w.price_usd = true) ∧
    (∀ p, (getTokenPrice env t).result = some p →
      isValidPriceN p = true ∨ getCachedPrice env = some p) ∧
    ((∀ td, env.cacheRead = Except.ok (some td) →
        jsEqZero td.price_usd = true ∨ isValidPriceN td.price_usd = true) →
      ∀ p, (getTokenPrice env t).result = some p → isValidPriceN p = true) := by
  cases hc : getCachedPrice env with
  | some c =>
    rw [getTokenPrice_cacheHit env t c hc]
    refine ⟨by simp, ?_, ?_⟩
    · intro p hp
      simp only [Option.some.injEq] at hp
      rcases hp with rfl
      exact Or.inr rfl
    · intro hinv p hp
      simp only [Option.some.injEq] at hp
      rcases hp with rfl
      obtain ⟨td, hcr, _, hz, hpd⟩ := (getCachedPrice_eq_some env c).mp hc
      rcases hinv td hcr with h0 | hok
      · rw [h0] at hz
        exact absurd hz (by simp)
      · rw [hpd]
        exact hok
  | none =>
    have hgoal : ∀ st2,
        (∀ w ∈ (finalize env t st2).attempted, isValidPriceN w.price_usd = true) ∧
        (∀ p, (finalize env t st2).result = some p →
          isValidPriceN p = true ∨ (none : Option JsNum) = some p) ∧
        ((∀ td, env.cacheRead = Except.ok (some td) →
            jsEqZero td.price_usd = true ∨ isValidPriceN td.price_usd = true) →
          ∀ p, (finalize env t st2).result = some p → isValidPriceN p = true) :=
      fun st2 =>
        ⟨(finalize_props env t st2).1,
         fun p hp => Or.inl ((finalize_props env t st2).2 p hp),
         fun _ p hp => (finalize_props env t st2).2 p hp⟩
    by_cases ht : t = "0x2::sui::SUI"
    · subst ht
      rw [getTokenPrice_missSui env hc]
      exact hgoal _
    · rw [getTokenPrice_missGeneric env t ht hc]
      exact hgoal _

/-- Environment for the C4 witness: only Aftermath delivers a valid
price. -/
def envC4w : Env :=
  { envFail with
    aftermath := fun _ =>
      Except.ok ⟨true, [("0xaaa::bbb::CCC", ⟨some (JsNum.fin 7)⟩)]⟩ }

/-- C4 witness: the live-resolved return value 7 is validator-accepted
(the cache branch of the disjunction is not needed). -/
theorem C4_validator_gate_witness :
    isValidPriceN (JsNum.fin 7) = true ∨ getCachedPrice envC4w = some (JsNum.fin 7) :=
  (C4_validator_gate envC4w "0xaaa::bbb::CCC").2.1 (JsNum.fin 7) (by decide)

-- ─── C5 ──────────────────────────────────────────────────────────────

/-- C5: the retry wrapper attempts the operation at most maxAttempts
times; between the failed attempt of index j (0-based) and the next it
waits delay * (j + 1), linear backoff; when every attempt fails it
returns null (never raises) after exactly maxAttempts attempts; and an
operation failing once then succeeding under maxAttempts 2 yields the
success after the single backoff delay. -/
theorem C5_retry_wrapper (α : Type) (op : Nat → Except Unit α) (m d : Nat) (v : α) :
    ((retryOperation op m d).2.1 ≤ m) ∧
    ((retryOperation op m d).2.2 =
      (List.range ((retryOperation op m d).2.1 - 1)).map fun j => d * (j + 1)) ∧
    ((∀ j, op j = Except.error ()) →
      (retryOperation op m d).1 = none ∧ (retryOperation op m d).2.1 = m) ∧
    (op 0 = Except.error () → op 1 = Except.ok v →
      retryOperation op 2 d = (some v, 2, [d])) := by
  refine ⟨retryGo_attempts_le op d m 0, ?_, ?_, ?_⟩
  · have h := retryGo_delays op d m 0
    simpa using h
  · intro hop
    exact retryGo_all_fail op d hop m 0
  · intro h0 h1
    show retryGo op d 0 2 = (some v, 2, [d])
    simp [retryGo, h0, h1]

/-- Operation for the C5 witness: fails on attempt 0, succeeds with 42
on every later attempt. -/
def opC5 : Nat → Except Unit Nat :=
  fun i => if i = 0 then Except.error () else Except.ok 42

/-- C5 witness: the fail-once-then-succeed operation under maxAttempts 2
yields the success after one backoff delay of 800. -/
theorem C5_retry_wrapper_witness : retryOperation opC5 2 800 = (some 42, 2, [800]) :=
  (C5_retry_wrapper Nat opC5 2 800 42).2.2.2 rfl rfl

-- ─── C6 ──────────────────────────────────────────────────────────────

/-- C6: a cache storage error on read behaves exactly like an absent
record (live resolution proceeds), and a storage error on the
post-resolution write is swallowed: nothing is persisted yet the
resolved value returned is the same as with working storage. -/
theorem C6_cache_storage_errors (env : Env) (t : String) :
    (env.cacheRead = Except.error () →
      getTokenPrice env t = getTokenPrice { env with cacheRead := Except.ok none } t) ∧
    (env.writeFails = true →
      (getTokenPrice env t).performed = [] ∧
      (getTokenPrice env t).result =
        (getTokenPrice { env with writeFails := false } t).result) := by
  constructor
  · intro h
    have h1 : getCachedPrice env = none := by
      unfold getCachedPrice
      rw [h]
    have h2 : getCachedPrice { env with cacheRead := Except.ok none } = none := rfl
    by_cases ht : t = "0x2::sui::SUI"
    · subst ht
      rw [getTokenPrice_missSui env h1, getTokenPrice_missSui _ h2]
      rfl
    · rw [getTokenPrice_missGeneric env t ht h1, getTokenPrice_missGeneric _ t ht h2]
      rfl
  · intro hw
    cases hc : getCachedPrice env with
    | some c =>
      have hc2 : getCachedPrice { env with writeFails := false } = some c := hc
      rw [getTokenPrice_cacheHit env t c hc, getTokenPrice_cacheHit _ t c hc2]
      exact ⟨rfl, rfl⟩
    | none =>
      have hc2 : getCachedPrice { env with writeFails := false } = none := hc
      by_cases ht : t = "0x2::sui::SUI"
      · subst ht
        rw [getTokenPrice_missSui env hc, getTokenPrice_missSui _ hc2]
        exact finalize_writeFails env _ _ hw
      · rw [getTokenPrice_missGeneric env t ht hc, getTokenPrice_missGeneric _ t ht hc2]
        exact finalize_writeFails env _ _ hw

/-- Environment for the C6 witness read part: the cache read throws. -/
def envC6r : Env := { envFail with cacheRead := Except.error () }

/-- Environment for the C6 witness write part: the cache write throws. -/
def envC6w : Env := { envFail with writeFails := true }

/-- C6 witness: both storage-error behaviors at concrete environments. -/
theorem C6_cache_storage_errors_witness :
    getTokenPrice envC6r "0xaaa::bbb::CCC" =
      getTokenPrice { envC6r with cacheRead := Except.ok none } "0xaaa::bbb::CCC" ∧
    (getTokenPrice envC6w "0xaaa::bbb::CCC").performed = [] ∧
    (getTokenPrice envC6w "0xaaa::bbb::CCC").result =
      (getTokenPrice { envC6w with writeFails := false } "0xaaa::bbb::CCC").result := by
  refine ⟨(C6_cache_storage_errors envC6r "0xaaa::bbb::CCC").1 rfl, ?_, ?_⟩
  · exact ((C6_cache_storage_errors envC6w "0xaaa::bbb::CCC").2 rfl).1
  · exact ((C6_cache_storage_errors envC6w "0xaaa::bbb::CCC").2 rfl).2

-- ─── C7 ──────────────────────────────────────────────────────────────

/-- When the full-identifier query returns a usable nonempty pairs
array, the adapter result is the shared pair-selection continuation. -/
theorem getDexScreenerPrice_proceed (env : Env) (r : DSResp) (ps : List DSPair)
    (hfull : env.dsFull 0 = Except.ok r) (hok : r.ok = true)
    (hp : r.pairs = some ps) (hne : ps ≠ []) :
    getDexScreenerPrice env = dsProceed ps := by
  have hbody : dsBody (env.dsFull 0) (env.dsContract 0) = Except.ok (dsProceed ps) := by
    rw [hfull]
    cases ps with
    | nil => exact absurd rfl hne
    | cons a l => simp [dsBody, hok, hp]
  show (retryGo (fun i => dsBody (env.dsFull i) (env.dsContract i)) 800 0 2).1.join =
    dsProceed ps
  rw [retryGo_ok _ 800 0 2 (dsProceed ps) (by omega) hbody]
  rfl

/-- When the full-identifier query yields no pairs, the adapter is
determined by the contract-address fallback query. -/
theorem getDexScreenerPrice_fb (env : Env) (r r2 : DSResp) (ps2 : List DSPair)
    (hfull : env.dsFull 0 = Except.ok r) (hok : r.ok = true)
    (hpe : r.pairs = none ∨ r.pairs = some [])
    (hc : env.dsContract 0 = Except.ok r2) (hok2 : r2.ok = true)
    (hp2 : r2.pairs = some ps2) (hne2 : ps2 ≠ []) :
    getDexScreenerPrice env = dsProceed ps2 := by
  have hfb : dsFallback (env.dsContract 0) = Except.ok (dsProceed ps2) := by
    rw [hc]
    cases ps2 with
    | nil => exact absurd rfl hne2
    | cons a l => simp [dsFallback, hok2, hp2]
  have hbody : dsBody (env.dsFull 0) (env.dsContract 0) = Except.ok (dsProceed ps2) := by
    rw [hfull]
    rcases hpe with hpe | hpe
    · simp [dsBody, hok, hpe, hfb]
    · simp [dsBody, hok, hpe, hfb]
  show (retryGo (fun i => dsBody (env.dsFull i) (env.dsContract i)) 800 0 2).1.join =
    dsProceed ps2
  rw [retryGo_ok _ 800 0 2 (dsProceed ps2) (by omega) hbody]
  rfl

/-- Empty filtered list: the selection yields no candidate. -/
theorem dsProceed_eq_nil (ps : List DSPair) (h : dsFiltered ps = []) :
    dsProceed ps = none := by
  unfold dsProceed
  rw [h]

/-- Nonempty filtered list: the selection takes the first maximal pair. -/
theorem dsProceed_eq_cons (ps : List DSPair) (b : DSPair) (tl : List DSPair)
    (hf : dsFiltered ps = b :: tl) :
    dsProceed ps =
      (if isValidPriceN (pickBest b tl).priceUsd.num
       then some (pickBest b tl).priceUsd.num else none) := by
  unfold dsProceed
  rw [hf]

/-- First scenario pair of the C7 claim: expected network, liquidity
1000. -/
def scenarioPairA (q : ℚ) : DSPair :=
  ⟨"sui", "dexA", ⟨"pa", JsNum.fin q⟩, some (JsNum.fin 1000), "", ""⟩

/-- Second scenario pair of the C7 claim: expected network, liquidity
5000. -/
def scenarioPairB (q : ℚ) : DSPair :=
  ⟨"sui", "dexB", ⟨"pb", JsNum.fin q⟩, some (JsNum.fin 5000), "", ""⟩

/-- C7 (amended): the pair-search adapter queries by the full identifier
and falls back to the contract-address query when no pairs come back;
it filters the pairs to the expected network with strictly positive
liquidity and selects the price of the (first) pair of maximal
liquidity (two matching pairs with liquidity 1000 and 5000 yield the
5000-liquidity price); when no pair passes the filter it yields no
candidate rather than scanning the remaining pairs. -/
theorem C7_dexscreener (env : Env) (r r2 : DSResp) (ps ps2 : List DSPair)
    (q1 q2 : ℚ) :
    (env.dsFull 0 = Except.ok r → r.ok = true → r.pairs = some ps → ps ≠ [] →
      ((dsFiltered ps = [] → getDexScreenerPrice env = none) ∧
       (∀ b tl, dsFiltered ps = b :: tl →
         pickBest b tl ∈ dsFiltered ps ∧
         (∀ x ∈ dsFiltered ps, jsGt (liqUsd x) (liqUsd (pickBest b tl)) = false) ∧
         getDexScreenerPrice env =
           (if isValidPriceN (pickBest b tl).priceUsd.num
            then some (pickBest b tl).priceUsd.num else none)))) ∧
    (env.dsFull 0 = Except.ok r → r.ok = true →
      (r.pairs = none ∨ r.pairs = some []) →
      env.dsContract 0 = Except.ok r2 → r2.ok = true → r2.pairs = some ps2 →
      ps2 ≠ [] → getDexScreenerPrice env = dsProceed ps2) ∧
    (env.dsFull 0 = Except.ok ⟨true, some [scenarioPairA q1, scenarioPairB q2]⟩ →
      0 < q2 → getDexScreenerPrice env = some (JsNum.fin q2)) := by
  refine ⟨?_, ?_, ?_⟩
  · intro hfull hok hp hne
    constructor
    · intro hfe
      rw [getDexScreenerPrice_proceed env r ps hfull hok hp hne, dsProceed_eq_nil ps hfe]
    · intro b tl hf
      have hliq := dsFiltered_liqOk ps
      have hb : liqOk (liqUsd b) = true := hliq b (by rw [hf]; simp)
      have htl : ∀ p ∈ tl, liqOk (liqUsd p) = true := fun p hp2 =>
        hliq p (by rw [hf]; simp [hp2])
      refine ⟨by rw [hf]; exact pickBest_mem b tl, ?_, ?_⟩
      · intro x hx
        rw [hf] at hx
        exact pickBest_not_gt b tl hb htl x hx
      · rw [getDexScreenerPrice_proceed env r ps hfull hok hp hne,
          dsProceed_eq_cons ps b tl hf]
  · intro hfull hok hpe hc hok2 hp2 hne2
    exact getDexScreenerPrice_fb env r r2 ps2 hfull hok hpe hc hok2 hp2 hne2
  · intro hfull h0
    have hfe : dsFiltered [scenarioPairA q1, scenarioPairB q2] =
        [scenarioPairA q1, scenarioPairB q2] := rfl
    have hpb : pickBest (scenarioPairA q1) [scenarioPairB q2] = scenarioPairB q2 := rfl
    rw [getDexScreenerPrice_proceed env _ _ hfull rfl rfl (by simp),
      dsProceed_eq_cons _ _ _ hfe, hpb]
    simp [scenarioPairB, isValidPriceN, h0]

/-- Single pair of the C7 counterexample: another network, positive
liquidity, a perfectly usable price of 2. -/
def pairC7 : DSPair := ⟨"ethereum", "uni", ⟨"2", JsNum.fin 2⟩, some (JsNum.fin 100), "", ""⟩

/-- Environment for the C7 counterexample. -/
def envC7 : Env := { envFail with dsFull := fun _ => Except.ok ⟨true, some [pairC7]⟩ }

/-- C7 counterexample: the one returned pair carries a usable
(validator-accepted) price but sits on another network, so the filter is
empty and the adapter returns null; it does not scan the returned pairs
for a usable price as the claim asserts. -/
theorem C7_counterexample :
    envC7.dsFull 0 = Except.ok ⟨true, some [pairC7]⟩ ∧
    isValidPriceN pairC7.priceUsd.num = true ∧
    getDexScreenerPrice envC7 = none := by
  exact ⟨rfl, by decide, by decide⟩

/-- Environment for the C7 witness: the two scenario pairs with prices 3
and 4. -/
def envC7w : Env :=
  { envFail with
    dsFull := fun _ => Except.ok ⟨true, some [scenarioPairA 3, scenarioPairB 4]⟩ }

/-- C7 witness: the 5000-liquidity pair price 4 is selected over the
1000-liquidity pair price 3. -/
theorem C7_dexscreener_witness : getDexScreenerPrice envC7w = some (JsNum.fin 4) :=
  (C7_dexscreener envC7w ⟨true, some [scenarioPairA 3, scenarioPairB 4]⟩
    ⟨false, none⟩ [] [] 3 4).2.2 rfl (by norm_num)

-- ─── C8 ──────────────────────────────────────────────────────────────

/-- C8: for the SUI base-asset identifier with a stale or absent cache
record, getTokenPrice runs the shortened reordered chain CoinGecko by
the known id sui first, then 7k, then GeckoTerminal, then DexScreener,
stopping at the first valid price; when the aggregator-by-id source
returns a valid price q, that price is returned and both the attempted
and the performed (storage working) cache write carry price q and
timestamp env.now, the call-time clock. -/
theorem C8_sui_chain (env : Env) (q : ℚ) (hc : getCachedPrice env = none) :
    ((getTokenPrice env "0x2::sui::SUI").trace =
      (if isValidPrice (getCoinGeckoPrice env "sui") then [Src.coingecko]
       else Src.coingecko ::
         firstValidTrace env "0x2::sui::SUI" [Src.s7k, Src.gecko, Src.dexscreener])) ∧
    (getCoinGeckoPrice env "sui" = some (JsNum.fin q) → 0 < q →
      env.writeFails = false →
      (getTokenPrice env "0x2::sui::SUI").result = some (JsNum.fin q) ∧
      (getTokenPrice env "0x2::sui::SUI").attempted =
        [⟨"0x2::sui::SUI", JsNum.fin q, env.now, "\x7b\x7d"⟩] ∧
      (getTokenPrice env "0x2::sui::SUI").performed =
        [⟨"0x2::sui::SUI", JsNum.fin q, env.now, "\x7b\x7d"⟩] ∧
      (getTokenPrice env "0x2::sui::SUI").trace = [Src.coingecko]) := by
  constructor
  · rw [getTokenPrice_missSui env hc, finalize_trace]
    by_cases hv : isValidPrice (getCoinGeckoPrice env "sui") = true
    · rw [runChain_of_valid env _ _ hv]
      simp [hv]
    · have hv' : isValidPrice (getCoinGeckoPrice env "sui") = false := by simpa using hv
      rw [runChain_trace env _ _ _ hv']
      simp [hv']
  · intro hcg h0 hw
    have hvN : isValidPriceN (JsNum.fin q) = true := by simp [isValidPriceN, h0]
    have hv : isValidPrice (getCoinGeckoPrice env "sui") = true := by
      rw [hcg]
      simpa [isValidPrice] using hvN
    rw [getTokenPrice_missSui env hc, runChain_of_valid env _ _ hv,
      finalize_of_valid env _ _ (JsNum.fin q) hcg hvN]
    simp [setCachedPrice, hw]

/-- Environment for the C8 witness: the CoinGecko simple-price endpoint
answers 1.23 dollars for the id sui; everything else fails. -/
def envC8 : Env :=
  { envFail with
    cgSimple := fun _ _ => Except.ok ⟨true, [("sui", JsNum.fin (123 / 100))]⟩ }

/-- C8 witness: with no cache entry and the aggregator-by-id source
returning 1.23, the SUI chain returns 1.23 and caches it at the
call-time clock after invoking only the CoinGecko adapter. -/
theorem C8_sui_chain_witness :
    (getTokenPrice envC8 "0x2::sui::SUI").result = some (JsNum.fin (123 / 100)) ∧
    (getTokenPrice envC8 "0x2::sui::SUI").attempted =
      [⟨"0x2::sui::SUI", JsNum.fin (123 / 100), 0, "\x7b\x7d"⟩] ∧
    (getTokenPrice envC8 "0x2::sui::SUI").performed =
      [⟨"0x2::sui::SUI", JsNum.fin (123 / 100), 0, "\x7b\x7d"⟩] ∧
    (getTokenPrice envC8 "0x2::sui::SUI").trace = [Src.coingecko] := by
  have hvp : isValidPrice (some (JsNum.fin (123 / 100))) = true := by
    simp only [isValidPrice, isValidPriceN, decide_eq_true_eq]
    norm_num
  have hbody : cgBody "sui" (envC8.cgSimple "sui" 0) =
      Except.ok (some (JsNum.fin (123 / 100))) := by
    simp [cgBody, envC8, envFail, lookupKey, hvp]
  have hcg : getCoinGeckoPrice envC8 "sui" = some (JsNum.fin (123 / 100)) := by
    show (retryGo (fun i => cgBody "sui" (envC8.cgSimple "sui" i)) 800 0 2).1.join =
      some (JsNum.fin (123 / 100))
    rw [retryGo_ok _ 800 0 2 (some (JsNum.fin (123 / 100))) (by omega) hbody]
    rfl
  exact (C8_sui_chain envC8 (123 / 100) rfl).2 hcg (by norm_num) rfl

-- ─── C9 ──────────────────────────────────────────────────────────────

/-- C9: the retry wrapper retries only on thrown errors: an operation
resolving on attempt 0, with any value including null, is returned after
exactly one invocation with no backoff delay; consequently the
GeckoTerminal adapter body, which resolves to null on a non-OK HTTP
response instead of throwing, is never re-attempted. -/
theorem C9_no_retry_on_null (α : Type) (op : Nat → Except Unit α) (m d : Nat)
    (v : α) (env : Env) (r : GTResp) :
    (0 < m → op 0 = Except.ok v → retryOperation op m d = (some v, 1, [])) ∧
    (env.gecko 0 = Except.ok r → r.ok = false →
      getGeckoTerminalPriceFull env = (some none, 1, []) ∧
      getGeckoTerminalPrice env = none) := by
  constructor
  · intro hm h0
    exact retryGo_ok op d 0 m v hm h0
  · intro hg hok
    have hbody : geckoBody (env.gecko 0) = Except.ok (none : Option JsNum) := by
      rw [hg]
      simp [geckoBody, hok]
    have hfull : getGeckoTerminalPriceFull env = (some none, 1, []) := by
      show retryGo (fun i => geckoBody (env.gecko i)) 800 0 2 = (some none, 1, [])
      exact retryGo_ok _ 800 0 2 none (by omega) hbody
    refine ⟨hfull, ?_⟩
    unfold getGeckoTerminalPrice
    rw [hfull]
    rfl

/-- Operation for the C9 witness: always resolves with 5. -/
def opC9 : Nat → Except Unit Nat := fun _ => Except.ok 5

/-- C9 witness: an immediately-resolving operation is invoked once with
no delays, and the all-fail environment (non-OK GeckoTerminal response)
makes the GeckoTerminal adapter resolve null in a single attempt. -/
theorem C9_no_retry_on_null_witness :
    retryOperation opC9 3 800 = (some 5, 1, []) ∧
    getGeckoTerminalPriceFull envFail = (some none, 1, []) ∧
    getGeckoTerminalPrice envFail = none := by
  have h := C9_no_retry_on_null Nat opC9 3 800 5 envFail ⟨false, none⟩
  exact ⟨h.1 (by omega) rfl, (h.2 rfl rfl).1, (h.2 rfl rfl).2⟩

-- ─── C10 ─────────────────────────────────────────────────────────────

/-- C10: in the Aftermath and 7k-batch adapters, when the parsed
response object has no entry under the requested identifier, the
candidate is taken from the value under the first key of the response object;
through the orchestrator such a price is returned by getTokenPrice and
cached under the requested identifier. -/
theorem C10_first_key_fallback (env : Env) (t : String) (r : AftResp) (k : String)
    (e : AftEntry) (p : ℚ) (pm : List (String × JsNum)) (k2 : String) (n : JsNum) :
    (env.aftermath 0 = Except.ok r → r.ok = true →
      lookupKey r.entries t = none → r.entries.head? = some (k, e) →
      e.price = some (JsNum.fin p) → 0 < p →
      getAftermathPrice env t = some (JsNum.fin p)) ∧
    (env.batch7k = Except.ok (some pm) → lookupKey pm t = none →
      pm.head? = some (k2, n) → isValidPriceN n = true →
      get7kBatchPrice env t = some n) ∧
    (getCachedPrice env = none → ¬ t = "0x2::sui::SUI" →
      isValidPrice (runSrc env t Src.s7k) = false →
      isValidPrice (runSrc env t Src.gecko) = false →
      isValidPrice (runSrc env t Src.dexscreener) = false →
      isValidPrice (runSrc env t Src.coingecko) = false →
      getAftermathPrice env t = some (JsNum.fin p) → 0 < p →
      (getTokenPrice env t).result = some (JsNum.fin p) ∧
      (getTokenPrice env t).attempted =
        [⟨t, JsNum.fin p, env.now, "\x7b\x7d"⟩]) := by
  refine ⟨?_, ?_, ?_⟩
  · intro ha hok hlk hhd hep hp
    have hbody : aftBody env t 0 = some (JsNum.fin p) := by
      unfold aftBody
      rw [ha]
      simp [hok, hlk, hhd, hep, isValidPrice, isValidPriceN, hp]
    show (retryGo (fun i => Except.ok (aftBody env t i)) 800 0 1).1.join =
      some (JsNum.fin p)
    have hop : (fun i => Except.ok (aftBody env t i) : Nat → Except Unit (Option JsNum)) 0 =
        Except.ok (some (JsNum.fin p)) := by
      show Except.ok (aftBody env t 0) = Except.ok (some (JsNum.fin p))
      rw [hbody]
    rw [retryGo_ok _ 800 0 1 (some (JsNum.fin p)) (by omega) hop]
    rfl
  · intro hb hlk hhd hvn
    unfold get7kBatchPrice
    rw [hb]
    simp [hlk, hhd, jsOr, isValidPrice, hvn]
  · intro hc ht h1 h2 h3 h4 ha hp
    have hval : isValidPrice (runSrc env t Src.aftermath) = true := by
      show isValidPrice (getAftermathPrice env t) = true
      rw [ha]
      simp [isValidPrice, isValidPriceN, hp]
    rw [getTokenPrice_missGeneric env t ht hc]
    have key : (runChain env t (get7kPrice env, [Src.s7k])
        [Src.gecko, Src.dexscreener, Src.coingecko, Src.aftermath,
         Src.hop, Src.batch7k, Src.dexSui]).1 = some (JsNum.fin p) := by
      simp only [runChain]
      rw [chainStep_of_invalid env t _ Src.gecko h1]
      rw [chainStep_of_invalid env t _ Src.dexscreener h2]
      rw [chainStep_of_invalid env t _ Src.coingecko h3]
      rw [chainStep_of_invalid env t _ Src.aftermath h4]
      rw [chainStep_of_valid env t _ Src.hop hval]
      rw [chainStep_of_valid env t _ Src.batch7k hval]
      rw [chainStep_of_valid env t _ Src.dexSui hval]
      exact ha
    rw [finalize_of_valid env t _ (JsNum.fin p) key (by simp [isValidPriceN, hp])]
    exact ⟨rfl, rfl⟩

/-- Environment for the C10 witness: the Aftermath response is keyed by
a different identifier with price 5; the batch response by another
identifier with price 6. -/
def envC10 : Env :=
  { envFail with
    aftermath := fun _ =>
      Except.ok ⟨true, [("0xother::mod::OTH", ⟨some (JsNum.fin 5)⟩)]⟩,
    batch7k := Except.ok (some [("0xother2::mod::OTH2", JsNum.fin 6)]) }

/-- C10 witness: the price 5 filed under a different key is returned for
the requested identifier and the attempted cache write records it under
the requested identifier. -/
theorem C10_first_key_fallback_witness :
    getAftermathPrice envC10 "0xabc::mod::TOK" = some (JsNum.fin 5) ∧
    get7kBatchPrice envC10 "0xabc::mod::TOK" = some (JsNum.fin 6) ∧
    (getTokenPrice envC10 "0xabc::mod::TOK").result = some (JsNum.fin 5) ∧
    (getTokenPrice envC10 "0xabc::mod::TOK").attempted =
      [⟨"0xabc::mod::TOK", JsNum.fin 5, 0, "\x7b\x7d"⟩] := by
  have h := C10_first_key_fallback envC10 "0xabc::mod::TOK"
    ⟨true, [("0xother::mod::OTH", ⟨some (JsNum.fin 5)⟩)]⟩ "0xother::mod::OTH"
    ⟨some (JsNum.fin 5)⟩ 5 [("0xother2::mod::OTH2", JsNum.fin 6)]
    "0xother2::mod::OTH2" (JsNum.fin 6)
  have haft : getAftermathPrice envC10 "0xabc::mod::TOK" = some (JsNum.fin 5) :=
    h.1 rfl rfl (by decide) rfl rfl (by norm_num)
  have hchain := h.2.2 rfl (by decide) (by decide) (by decide) (by decide) (by decide)
    haft (by norm_num)
  exact ⟨haft, h.2.1 rfl (by decide) rfl (by decide), hchain.1, hchain.2⟩
